import Mathlib

/-!
# Verification of `Receiver` from `src/receiver.rs` (secure-frame-rs)

Shallow embedding of the SFrame receiver: header parsing, frame validation,
key-store lookup, AEAD decryption and buffer reconstruction.  Byte buffers are
`List Nat`, the key map is a function `KeyId → Option Secret` (the observable
behaviour of the `HashMap`), and the external collaborators whose sources are
not part of the core (header codec, cipher suite, key expansion, frame
validation) are modelled from the spec as records carrying their contracts.
Rust slice-index panics and debug-mode integer-overflow panics are made
explicit via a `panic` result constructor.
-/

/-- Modelled from the spec: the error taxonomy of `error.rs` (not part of the
core source).  Only the shape needed by the receiver is kept: a parse error
from the header codec, a validation error from the replay policy, the
missing-key error carrying the offending key id, an AEAD authentication
failure, and a key-expansion failure. -/
inductive SframeError where
  | unableToDeserialize : SframeError
  | frameValidationFailed : SframeError
  | missingDecryptionKey (keyId : Nat) : SframeError
  | decryptionFailure : SframeError
  | keyExpansion : SframeError
  deriving DecidableEq, Repr

/-- Key ids are variable-width integers on the wire; as map keys they behave
as natural numbers (`KeyId::from(u64)`). -/
abbrev KeyId := Nat

/-- Modelled from the spec: a `Secret` from `key_expansion.rs` (not part of
the core source) is cipher-suite-specific derived key material: an encryption
key and a salt/IV base. -/
structure Secret where
  key : List Nat
  salt : List Nat
  deriving DecidableEq, Repr

/-- The parsed representation of the unencrypted frame header:
`{key_id, frame_counter, encoded_size}` (spec §3).  `size` is the value the
codec reports as its consumed length (`Header::size()` in the source). -/
structure Header where
  keyId : KeyId
  frameCounter : Nat
  size : Nat
  deriving DecidableEq, Repr

/-- Modelled from the spec: the header codec of `header.rs` (not part of the
core source).  `deserialize` parses a header from the leading bytes and must
report its own consumed length as `encoded_size`; the invariant field
`size_le` is the spec's "`encoded_size` equals the exact number of leading
bytes consumed" (so the header never overlaps the payload). -/
structure HeaderCodec where
  deserialize : List Nat → Except SframeError Header
  size_le : ∀ bs h, deserialize bs = .ok h → h.size ≤ bs.length

/-- Modelled from the spec: the cipher-suite AEAD boundary of
`cipher_suite.rs` (not part of the core source).  `decryptBuf` is the
functional rendering of the in-place
`decrypt(io_buffer_slice, secret, associated_data, frame_counter)`:
it returns the new contents of the mutated slice.  The contract fields are
the spec's §4.3 obligations: in-place mutation preserves the slice length,
and a successful decryption implies the slice held at least the
authentication tag.  `expand` is `KeyMaterial::expand_as_secret` for this
suite (spec §4.2). -/
structure CipherSuite where
  authTagLen : Nat
  decryptBuf : List Nat → Secret → List Nat → Nat → Except SframeError (List Nat)
  expand : List Nat → Except SframeError Secret
  decrypt_length : ∀ buf s aad ctr out,
    decryptBuf buf s aad ctr = .ok out → out.length = buf.length
  decrypt_min_len : ∀ buf s aad ctr out,
    decryptBuf buf s aad ctr = .ok out → authTagLen ≤ buf.length

/-- The result of a Rust function call as observed by the caller: a normal
`Ok` value, a typed `Err`, or a panic (out-of-bounds slice index or
debug-mode arithmetic overflow). -/
inductive RResult (α : Type) where
  | panic : RResult α
  | err (e : SframeError) : RResult α
  | ok (a : α) : RResult α
  deriving DecidableEq, Repr

/-- The receiver state (`struct Receiver` plus its `ReceiverOptions`),
parameterised by the type `V` of the validation policy's internal state: the
key store `secrets`, the configured cipher suite, the configured validation
policy (`validate` threads the policy state explicitly, modelling the
interior mutability behind `Box<dyn FrameValidation>`), and the policy's
current state. -/
structure Receiver (V : Type) where
  secrets : KeyId → Option Secret
  cipherSuite : CipherSuite
  frameValidation : V → Header → Except SframeError V
  validatorState : V

/-- `Receiver::decrypt(&self, encrypted_frame, skip)`, translated line by
line from `src/receiver.rs`.  The returned receiver carries the (possibly
advanced) validator state; `secrets` is behind `&self` and is never written.
The slice `&encrypted_frame[skip..]` panics when `skip` exceeds the frame
length; `&encrypted_frame[payload_begin_idx..]` panics when the parsed
header size overruns the frame; the debug-mode subtraction
`io_buffer.len() - auth_tag_len` panics on underflow. -/
def Receiver.decrypt {V : Type} (r : Receiver V) (codec : HeaderCodec)
    (encryptedFrame : List Nat) (skip : Nat) :
    RResult (List Nat) × Receiver V :=
  if skip ≤ encryptedFrame.length then
    match codec.deserialize (encryptedFrame.drop skip) with
    | .error e => (.err e, r)
    | .ok header =>
      match r.frameValidation r.validatorState header with
      | .error e => (.err e, r)
      | .ok vs =>
        let r' : Receiver V := { r with validatorState := vs }
        let keyId := header.keyId
        match r.secrets keyId with
        | none => (.err (.missingDecryptionKey keyId), r')
        | some secret =>
          let payloadBeginIdx := skip + header.size
          if payloadBeginIdx ≤ encryptedFrame.length then
            let ioBuffer : List Nat :=
              encryptedFrame.take skip ++ encryptedFrame.drop payloadBeginIdx
            match r.cipherSuite.decryptBuf (ioBuffer.drop skip) secret
                ((encryptedFrame.drop skip).take header.size)
                header.frameCounter with
            | .error e => (.err e, r')
            | .ok plain =>
              let buf := ioBuffer.take skip ++ plain
              if r.cipherSuite.authTagLen ≤ buf.length then
                (.ok (buf.take (buf.length - r.cipherSuite.authTagLen)), r')
              else
                (.panic, r')
          else
            (.panic, r')
  else
    (.panic, r)

/-- `Receiver::set_encryption_key(&mut self, receiver_id, key_material)`:
expand the key material to a `Secret` and insert it under the id,
overwriting any previous entry; on expansion failure the early return (`?`)
leaves the receiver untouched. -/
def Receiver.setEncryptionKey {V : Type} (r : Receiver V) (receiverId : Nat)
    (keyMaterial : List Nat) : Except SframeError Unit × Receiver V :=
  match r.cipherSuite.expand keyMaterial with
  | .error e => (.error e, r)
  | .ok s =>
    (.ok (),
     { r with secrets := fun k => if k = receiverId then some s else r.secrets k })

/-- `Receiver::remove_encryption_key(&mut self, receiver_id)`: remove the
entry and report whether one existed. -/
def Receiver.removeEncryptionKey {V : Type} (r : Receiver V) (receiverId : Nat) :
    Bool × Receiver V :=
  ((r.secrets receiverId).isSome,
   { r with secrets := fun k => if k = receiverId then none else r.secrets k })

/-! ## Concrete instances used to exercise the development -/

/-- A concrete two-byte header codec: byte 0 is the key id, byte 1 the frame
counter, encoded size 2.  Exists only to instantiate `HeaderCodec`. -/
def testDeserialize : List Nat → Except SframeError Header
  | b0 :: b1 :: _ => .ok ⟨b0, b1, 2⟩
  | _ => .error .unableToDeserialize

def testCodec : HeaderCodec where
  deserialize := testDeserialize
  size_le := by
    intro bs h hh
    match bs with
    | [] => simp [testDeserialize] at hh
    | [_] => simp [testDeserialize] at hh
    | b0 :: b1 :: rest =>
      simp [testDeserialize] at hh
      rw [← hh]
      simp

/-- A concrete AEAD model with a one-byte tag that leaves the buffer
unchanged and fails on buffers too short to hold the tag. -/
def testDecryptBuf (buf : List Nat) (_s : Secret) (_aad : List Nat) (_ctr : Nat) :
    Except SframeError (List Nat) :=
  if 1 ≤ buf.length then .ok buf else .error .decryptionFailure

/-- A concrete key expansion that fails exactly on empty key material. -/
def testExpand (km : List Nat) : Except SframeError Secret :=
  if km.length = 0 then .error .keyExpansion else .ok ⟨km, km⟩

def testCipher : CipherSuite where
  authTagLen := 1
  decryptBuf := testDecryptBuf
  expand := testExpand
  decrypt_length := by
    intro buf s aad ctr out h
    unfold testDecryptBuf at h
    split at h
    · cases h; rfl
    · cases h
  decrypt_min_len := by
    intro buf s aad ctr out h
    unfold testDecryptBuf at h
    split at h
    · assumption
    · cases h

/-- A validation policy that accepts every header without touching state. -/
def okValidate : Unit → Header → Except SframeError Unit := fun s _ => .ok s

/-- A validation policy that rejects every header. -/
def rejectValidate : Unit → Header → Except SframeError Unit :=
  fun _ _ => .error .frameValidationFailed

def testSecret : Secret := ⟨[1], [2]⟩

/-- A receiver with an empty key store. -/
def testReceiver : Receiver Unit where
  secrets := fun _ => none
  cipherSuite := testCipher
  frameValidation := okValidate
  validatorState := ()

/-- A receiver holding a secret for key id 7. -/
def keyedReceiver : Receiver Unit where
  secrets := fun k => if k = 7 then some testSecret else none
  cipherSuite := testCipher
  frameValidation := okValidate
  validatorState := ()

/-- A receiver whose validation policy rejects everything. -/
def rejectingReceiver : Receiver Unit where
  secrets := fun _ => none
  cipherSuite := testCipher
  frameValidation := rejectValidate
  validatorState := ()
/-! ## Helper lemmas -/

/-- Elimination principle for a successful `decrypt`: recovers the parsed
header, the looked-up secret, the cipher-suite call on exactly the
post-header bytes with the header bytes as associated data, and the shape of
the returned buffer. -/
theorem decrypt_ok_elim {V : Type} (r : Receiver V) (codec : HeaderCodec)
    (frame : List Nat) (skip : Nat) (out : List Nat)
    (hok : (r.decrypt codec frame skip).1 = .ok out) :
    skip ≤ frame.length ∧
    ∃ h vs secret pt,
      codec.deserialize (frame.drop skip) = .ok h ∧
      r.frameValidation r.validatorState h = .ok vs ∧
      r.secrets h.keyId = some secret ∧
      skip + h.size ≤ frame.length ∧
      r.cipherSuite.decryptBuf (frame.drop (skip + h.size)) secret
        ((frame.drop skip).take h.size) h.frameCounter = .ok pt ∧
      pt.length = frame.length - (skip + h.size) ∧
      r.cipherSuite.authTagLen ≤ pt.length ∧
      out = frame.take skip ++ pt.take (pt.length - r.cipherSuite.authTagLen) := by
  unfold Receiver.decrypt at hok
  split at hok
  case isFalse => simp at hok
  case isTrue hskip =>
    constructor
    · exact hskip
    split at hok
    case h_1 => simp at hok
    case h_2 h hdes =>
      split at hok
      case h_1 => simp at hok
      case h_2 vs hval =>
        dsimp only at hok
        split at hok
        case h_1 => simp at hok
        case h_2 secret hsec =>
          split at hok
          case isFalse => simp at hok
          case isTrue hsz =>
            have htake : (frame.take skip).length = skip := by
              rw [List.length_take]; omega
            have hdropio :
                (frame.take skip ++ frame.drop (skip + h.size)).drop skip =
                  frame.drop (skip + h.size) := List.drop_left' htake
            rw [hdropio] at hok
            split at hok
            case h_1 => simp at hok
            case h_2 pt hdec =>
              have hlen : pt.length = frame.length - (skip + h.size) := by
                have := r.cipherSuite.decrypt_length _ _ _ _ _ hdec
                rw [this, List.length_drop]
              have hmin : r.cipherSuite.authTagLen ≤ pt.length := by
                have := r.cipherSuite.decrypt_min_len _ _ _ _ _ hdec
                rw [List.length_drop] at this
                omega
              refine ⟨h, vs, secret, pt, hdes, hval, hsec, hsz, hdec, hlen, hmin, ?_⟩
              have htakeio :
                  (frame.take skip ++ frame.drop (skip + h.size)).take skip =
                    frame.take skip := List.take_left' htake
              rw [htakeio] at hok
              split at hok
              case isFalse hc =>
                exfalso
                apply hc
                rw [List.length_append, htake]
                omega
              case isTrue hc =>
                simp only [RResult.ok.injEq] at hok
                rw [← hok]
                rw [List.length_append, htake, List.take_append_eq_append_take, htake]
                congr 1
                · rw [List.take_of_length_le]
                  omega
                · congr 1
                  omega

/-! ## Claims -/

/-- C1: for every encrypted frame and skip value for which `Receiver.decrypt`
succeeds, the returned plaintext buffer is the first `skip` bytes of the
input, unchanged, immediately followed by the decrypted payload (the
tag-truncated cipher-suite output on the post-header bytes); the
`encoded_size` header bytes at offset `skip` are dropped and never copied
into the output. -/
theorem C1_decrypt_output_structure {V : Type} (r : Receiver V)
    (codec : HeaderCodec) (frame : List Nat) (skip : Nat) (out : List Nat)
    (hok : (r.decrypt codec frame skip).1 = .ok out) :
    ∃ h secret pt,
      codec.deserialize (frame.drop skip) = .ok h ∧
      r.secrets h.keyId = some secret ∧
      r.cipherSuite.decryptBuf (frame.drop (skip + h.size)) secret
        ((frame.drop skip).take h.size) h.frameCounter = .ok pt ∧
      out = frame.take skip ++ pt.take (pt.length - r.cipherSuite.authTagLen) := by
  obtain ⟨hskip, h, vs, secret, pt, hdes, hval, hsec, hsz, hdec, hlen, hmin, hout⟩ :=
    decrypt_ok_elim r codec frame skip out hok
  exact ⟨h, secret, pt, hdes, hsec, hdec, hout⟩

/-- C1 witness: a concrete successful decryption exhibiting the structure. -/
theorem C1_witness :
    (keyedReceiver.decrypt testCodec [9, 7, 0, 42, 43, 99] 1).1 = .ok [9, 42, 43] ∧
    ∃ h secret pt,
      testCodec.deserialize (List.drop 1 [9, 7, 0, 42, 43, 99]) = .ok h ∧
      keyedReceiver.secrets h.keyId = some secret ∧
      keyedReceiver.cipherSuite.decryptBuf (List.drop (1 + h.size) [9, 7, 0, 42, 43, 99]) secret
        ((List.drop 1 [9, 7, 0, 42, 43, 99]).take h.size) h.frameCounter = .ok pt ∧
      [9, 42, 43] = List.take 1 [9, 7, 0, 42, 43, 99] ++
        pt.take (pt.length - keyedReceiver.cipherSuite.authTagLen) :=
  ⟨by decide,
   C1_decrypt_output_structure keyedReceiver testCodec [9, 7, 0, 42, 43, 99] 1 [9, 42, 43]
     (by decide)⟩

/-- C2: whenever `Receiver.decrypt` succeeds, the returned buffer's length is
the input frame length minus the header's encoded size minus the cipher
suite's authentication-tag length. -/
theorem C2_decrypt_output_length {V : Type} (r : Receiver V)
    (codec : HeaderCodec) (frame : List Nat) (skip : Nat) (out : List Nat)
    (hok : (r.decrypt codec frame skip).1 = .ok out) :
    ∃ h, codec.deserialize (frame.drop skip) = .ok h ∧
      out.length = frame.length - h.size - r.cipherSuite.authTagLen := by
  obtain ⟨hskip, h, vs, secret, pt, hdes, hval, hsec, hsz, hdec, hlen, hmin, hout⟩ :=
    decrypt_ok_elim r codec frame skip out hok
  refine ⟨h, hdes, ?_⟩
  subst hout
  rw [List.length_append, List.length_take, List.length_take]
  omega

/-- C2 witness: concrete successful decryption; 3 = 6 − 2 − 1. -/
theorem C2_witness :
    ∃ h, testCodec.deserialize (List.drop 1 [9, 7, 0, 42, 43, 99]) = .ok h ∧
      (3 : Nat) = 6 - h.size - keyedReceiver.cipherSuite.authTagLen :=
  C2_decrypt_output_length keyedReceiver testCodec [9, 7, 0, 42, 43, 99] 1 [9, 42, 43]
    (by decide)

/-- C3: whenever `Receiver.decrypt` reaches the cipher-suite decryption step
(header parsed, validation passed, secret found), the associated data passed
to the cipher suite is exactly the raw header bytes of the input (the
`encoded_size` bytes starting at offset `skip`) and the nonce input is the
frame counter parsed from them: the result of `decrypt` is determined by the
cipher suite's value at precisely those arguments. -/
theorem C3_cipher_call_args {V : Type} (r : Receiver V) (codec : HeaderCodec)
    (frame : List Nat) (skip : Nat) (h : Header) (vs : V) (secret : Secret)
    (hskip : skip ≤ frame.length)
    (hdes : codec.deserialize (frame.drop skip) = .ok h)
    (hval : r.frameValidation r.validatorState h = .ok vs)
    (hsec : r.secrets h.keyId = some secret) :
    (r.decrypt codec frame skip).1 =
      match r.cipherSuite.decryptBuf (frame.drop (skip + h.size)) secret
          ((frame.drop skip).take h.size) h.frameCounter with
      | .error e => .err e
      | .ok pt =>
        .ok (frame.take skip ++ pt.take (pt.length - r.cipherSuite.authTagLen)) := by
  have hsz : skip + h.size ≤ frame.length := by
    have := codec.size_le _ _ hdes
    rw [List.length_drop] at this
    omega
  have htake : (frame.take skip).length = skip := by
    rw [List.length_take]; omega
  unfold Receiver.decrypt
  rw [if_pos hskip, hdes]
  dsimp only
  rw [hval]
  dsimp only
  rw [hsec]
  dsimp only
  rw [if_pos hsz, List.drop_left' htake, List.take_left' htake]
  cases hdec : r.cipherSuite.decryptBuf (frame.drop (skip + h.size)) secret
      ((frame.drop skip).take h.size) h.frameCounter with
  | error e => rfl
  | ok pt =>
    dsimp only
    have hmin : r.cipherSuite.authTagLen ≤ pt.length := by
      have h1 := r.cipherSuite.decrypt_min_len _ _ _ _ _ hdec
      have h2 := r.cipherSuite.decrypt_length _ _ _ _ _ hdec
      omega
    have hbuf : r.cipherSuite.authTagLen ≤ (frame.take skip ++ pt).length := by
      rw [List.length_append]
      omega
    rw [if_pos hbuf]
    dsimp only
    rw [List.length_append, htake, List.take_append_eq_append_take, htake]
    simp only [RResult.ok.injEq]
    congr 1
    · rw [List.take_of_length_le]
      omega
    · congr 1
      omega

/-- C3 witness: the concrete decryption above factors through the cipher call
with the header bytes `[7, 0]` as associated data and counter `0`. -/
theorem C3_witness :
    (keyedReceiver.decrypt testCodec [9, 7, 0, 42, 43, 99] 1).1 =
      match keyedReceiver.cipherSuite.decryptBuf
          (List.drop (1 + Header.size ⟨7, 0, 2⟩) [9, 7, 0, 42, 43, 99]) testSecret
          ((List.drop 1 [9, 7, 0, 42, 43, 99]).take (Header.size ⟨7, 0, 2⟩))
          (Header.frameCounter ⟨7, 0, 2⟩) with
      | .error e => .err e
      | .ok pt =>
        .ok (List.take 1 [9, 7, 0, 42, 43, 99] ++
          pt.take (pt.length - keyedReceiver.cipherSuite.authTagLen)) :=
  C3_cipher_call_args keyedReceiver testCodec [9, 7, 0, 42, 43, 99] 1 ⟨7, 0, 2⟩ () testSecret
    (by decide) rfl rfl rfl

/-- C4: `decrypt` parses the header first, then runs the validation policy,
then looks up the secret: a parse error is returned as-is before anything
else, and a validation error is returned unchanged for every key store — in
particular before (and instead of) any missing-key error. -/
theorem C4_step_order {V : Type} (r : Receiver V) (codec : HeaderCodec)
    (frame : List Nat) (skip : Nat) (hskip : skip ≤ frame.length) :
    (∀ e, codec.deserialize (frame.drop skip) = .error e →
      (r.decrypt codec frame skip).1 = .err e) ∧
    (∀ h e, codec.deserialize (frame.drop skip) = .ok h →
      r.frameValidation r.validatorState h = .error e →
      (r.decrypt codec frame skip).1 = .err e) := by
  constructor
  · intro e hdes
    unfold Receiver.decrypt
    rw [if_pos hskip, hdes]
  · intro h e hdes hval
    unfold Receiver.decrypt
    rw [if_pos hskip, hdes]
    dsimp only
    rw [hval]

/-- C4 witness: a parse error surfaces as-is, and a rejecting validation
policy's error surfaces even though the key store is empty (no missing-key
error). -/
theorem C4_witness :
    (testReceiver.decrypt testCodec [5] 0).1 = .err .unableToDeserialize ∧
    (rejectingReceiver.decrypt testCodec [7, 0, 1] 0).1 = .err .frameValidationFailed :=
  ⟨(C4_step_order testReceiver testCodec [5] 0 (by decide)).1 .unableToDeserialize rfl,
   (C4_step_order rejectingReceiver testCodec [7, 0, 1] 0 (by decide)).2 ⟨7, 0, 2⟩
     .frameValidationFailed rfl rfl⟩

/-- C5: a well-formed frame that passes validation but whose key id has no
stored secret fails with a missing-key error carrying exactly that key id. -/
theorem C5_missing_key {V : Type} (r : Receiver V) (codec : HeaderCodec)
    (frame : List Nat) (skip : Nat) (h : Header) (vs : V)
    (hskip : skip ≤ frame.length)
    (hdes : codec.deserialize (frame.drop skip) = .ok h)
    (hval : r.frameValidation r.validatorState h = .ok vs)
    (hnone : r.secrets h.keyId = none) :
    (r.decrypt codec frame skip).1 = .err (.missingDecryptionKey h.keyId) := by
  unfold Receiver.decrypt
  rw [if_pos hskip, hdes]
  dsimp only
  rw [hval]
  dsimp only
  rw [hnone]

/-- C5 witness: the empty-store receiver rejects a parseable frame with the
missing-key error for key id 7. -/
theorem C5_witness :
    (testReceiver.decrypt testCodec [7, 0, 1] 0).1 = .err (.missingDecryptionKey 7) :=
  C5_missing_key testReceiver testCodec [7, 0, 1] 0 ⟨7, 0, 2⟩ () (by decide) rfl rfl rfl

/-- C6: `remove_encryption_key` returns `false` when no secret is stored for
the id, and `true` exactly once per preceding successful
`set_encryption_key`; a repeated set for the same id overwrites (last write
wins), so a single remove after two sets still returns `true` only once. -/
theorem C6_key_lifecycle {V : Type} (r : Receiver V) (id : Nat)
    (km1 km2 : List Nat) (s1 s2 : Secret)
    (h1 : r.cipherSuite.expand km1 = .ok s1)
    (h2 : r.cipherSuite.expand km2 = .ok s2)
    (hnone : r.secrets id = none) :
    (r.removeEncryptionKey id).1 = false ∧
    ((r.setEncryptionKey id km1).2.setEncryptionKey id km2).2.secrets id = some s2 ∧
    (((r.setEncryptionKey id km1).2.setEncryptionKey id km2).2.removeEncryptionKey
      id).1 = true ∧
    ((((r.setEncryptionKey id km1).2.setEncryptionKey id km2).2.removeEncryptionKey
      id).2.removeEncryptionKey id).1 = false := by
  unfold Receiver.setEncryptionKey Receiver.removeEncryptionKey
  rw [h1]
  dsimp only
  rw [h2]
  dsimp only
  simp [hnone]

/-- C6 witness: never-set id removes as `false`; after two sets of id 3 the
stored secret is the second one, remove returns `true` then `false`. -/
theorem C6_witness :
    (testReceiver.removeEncryptionKey 3).1 = false ∧
    ((testReceiver.setEncryptionKey 3 [1]).2.setEncryptionKey 3 [2]).2.secrets 3 =
      some ⟨[2], [2]⟩ ∧
    (((testReceiver.setEncryptionKey 3 [1]).2.setEncryptionKey 3 [2]).2.removeEncryptionKey
      3).1 = true ∧
    ((((testReceiver.setEncryptionKey 3 [1]).2.setEncryptionKey 3
      [2]).2.removeEncryptionKey 3).2.removeEncryptionKey 3).1 = false :=
  C6_key_lifecycle testReceiver 3 [1] [2] ⟨[1], [1]⟩ ⟨[2], [2]⟩ rfl rfl rfl

/-- C7: when key expansion fails, `set_encryption_key` returns that error and
leaves the receiver — in particular its whole key store — unchanged. -/
theorem C7_set_failure_no_mutation {V : Type} (r : Receiver V) (id : Nat)
    (km : List Nat) (e : SframeError)
    (hf : r.cipherSuite.expand km = .error e) :
    (r.setEncryptionKey id km).1 = .error e ∧ (r.setEncryptionKey id km).2 = r := by
  unfold Receiver.setEncryptionKey
  rw [hf]
  exact ⟨rfl, rfl⟩

/-- C7 witness: expansion of empty key material fails and the receiver is
returned untouched. -/
theorem C7_witness :
    (testReceiver.setEncryptionKey 3 []).1 = .error .keyExpansion ∧
    (testReceiver.setEncryptionKey 3 []).2 = testReceiver :=
  C7_set_failure_no_mutation testReceiver 3 [] .keyExpansion rfl

/-- C8 counterexample: the claim "decrypt returns a typed result and never
panics for every skip value, including skip greater than the frame length"
is false: `&encrypted_frame[skip..]` is an out-of-bounds slice for
`skip = 1` on the empty frame, a panic. -/
theorem C8_counterexample :
    (testReceiver.decrypt testCodec [] 1).1 = .panic := by decide

/-- C8 (amended): for every frame and every `skip` not exceeding the frame
length, `decrypt` terminates with a typed result (`Ok` or a typed error) and
never panics; in particular truncated or malformed input, or a frame too
short to hold the authentication tag, produces an error, not a panic.  (When
`skip` exceeds the frame length the initial slice `&encrypted_frame[skip..]`
panics, so the bound is necessary.) -/
theorem C8_no_panic {V : Type} (r : Receiver V) (codec : HeaderCodec)
    (frame : List Nat) (skip : Nat) (hskip : skip ≤ frame.length) :
    (r.decrypt codec frame skip).1 ≠ .panic := by
  unfold Receiver.decrypt
  rw [if_pos hskip]
  split
  · simp
  case h_2 h hdes =>
    try dsimp only
    split
    · simp
    case h_2 vs hval =>
      try dsimp only
      have hsz : skip + h.size ≤ frame.length := by
        have := codec.size_le _ _ hdes
        rw [List.length_drop] at this
        omega
      split
      · simp
      case h_2 secret hsec =>
        rw [if_pos hsz]
        try dsimp only
        split
        · simp
        case h_2 pt hdec =>
          have h1 := r.cipherSuite.decrypt_min_len _ _ _ _ _ hdec
          have h2 := r.cipherSuite.decrypt_length _ _ _ _ _ hdec
          have hbuf : r.cipherSuite.authTagLen ≤
              (List.take skip (List.take skip frame ++
                List.drop (skip + h.size) frame) ++ pt).length := by
            rw [List.length_append]
            omega
          rw [if_pos hbuf]
          simp

/-- C8 witness for the amended claim: a concrete in-bounds call does not
panic. -/
theorem C8_witness :
    (keyedReceiver.decrypt testCodec [9, 7, 0, 42, 43, 99] 1).1 ≠ .panic :=
  C8_no_panic keyedReceiver testCodec [9, 7, 0, 42, 43, 99] 1 (by decide)

/-- C9: `decrypt` never mutates the key store: wherever the call ends
(success, typed error or panic), the mapping from key ids to secrets of the
returned receiver is the one it was called with. -/
theorem C9_decrypt_preserves_secrets {V : Type} (r : Receiver V)
    (codec : HeaderCodec) (frame : List Nat) (skip : Nat) :
    ((r.decrypt codec frame skip).2).secrets = r.secrets := by
  unfold Receiver.decrypt
  split
  case isFalse => rfl
  case isTrue =>
    split
    · rfl
    · try dsimp only
      split
      · rfl
      · try dsimp only
        split
        · rfl
        · try dsimp only
          split
          · try dsimp only
            split
            · rfl
            · try dsimp only
              split <;> rfl
          · rfl

/-- C10: key-store operations are isolated per key id: setting or removing
key id `x` leaves the stored secret for any other id `y` (presence and
value) unchanged. -/
theorem C10_key_isolation {V : Type} (r : Receiver V) (x y : Nat)
    (km : List Nat) (hxy : x ≠ y) :
    ((r.setEncryptionKey x km).2).secrets y = r.secrets y ∧
    ((r.removeEncryptionKey x).2).secrets y = r.secrets y := by
  constructor
  · unfold Receiver.setEncryptionKey
    cases hce : r.cipherSuite.expand km with
    | error e => rfl
    | ok s =>
      dsimp only
      rw [if_neg (Ne.symm hxy)]
  · unfold Receiver.removeEncryptionKey
    dsimp only
    rw [if_neg (Ne.symm hxy)]

/-- C10 witness: setting or removing key id 1 leaves key id 7's secret in
`keyedReceiver` untouched. -/
theorem C10_witness :
    ((keyedReceiver.setEncryptionKey 1 [5]).2).secrets 7 = keyedReceiver.secrets 7 ∧
    ((keyedReceiver.removeEncryptionKey 1).2).secrets 7 = keyedReceiver.secrets 7 :=
  C10_key_isolation keyedReceiver 1 7 [5] (by decide)
